import Mathlib

/-!
Verification of the usage-ledger and transcription-pipeline core of the
STT-Telegram repository, shallowly embedded from the Python sources
(`src/services/db_service.py`, `src/services/openai_service.py`,
`src/services/payment_service.py`, `src/bot.py`).

Seconds and rouble amounts are Python floats in the source; they are
embedded as exact rationals (ℚ).  Database rows are embedded as Lean
structures, tables as functions from ids to optional rows, and each
`async` database helper as a pure state transformer: every helper opens
its own session and commits once, so one helper call is one atomic step.
The job pipeline `handle_audio` is embedded as a function from an
environment (the external collaborators' answers: file sizes, compressor
success, transcription-service outcome) to a terminal outcome together
with the ordered list of observable events it performs (downloads,
temp-file creations and removals, the quota check, the debit, the job
record write, the transcription call).
-/

namespace STT

/-- Python's two-argument `max` specialised to rationals: `max(a, b)`
returns `a` when `b <= a` and `b` otherwise.  Used for the
`max(0.0, ...)` clippings in `db_service.py`. -/
def pymax (a b : ℚ) : ℚ := if b ≤ a then a else b

/-- Python's `int(...)` conversion on an exact rational: truncation
toward zero. -/
def pyInt (q : ℚ) : ℤ := if 0 ≤ q then ⌊q⌋ else ⌈q⌉

/-- Free lifetime allowance in seconds: the literal `300` used in
`check_user_limit`, `update_user_usage` and `get_user_stats`
(`db_service.py`). -/
def FREE_ALLOWANCE_SECONDS : ℚ := 300

/-- The `users` table row, restricted to the two fields the ledger
mutates (`db_service.py`, class `User`): `balance_seconds` and
`used_free_seconds`, floats defaulting to `0.0`. -/
structure UserRow where
  balance_seconds : ℚ
  used_free_seconds : ℚ
  deriving DecidableEq

/-- `db_service.check_user_limit(user_id, duration)`.  The session
fetches the user row (passed here as `Option UserRow`); a missing user
is allowed with `0.0` missing seconds; otherwise
`remaining_free = max(0.0, 300 - used_free_seconds)` and
`total_available = remaining_free + balance_seconds`; the call answers
`(True, 0.0)` iff `total_available >= duration` and otherwise
`(False, duration - total_available)`. -/
def check_user_limit (user : Option UserRow) (duration : ℚ) : Bool × ℚ :=
  match user with
  | none => (true, 0)
  | some u =>
    let remaining_free := pymax 0 (FREE_ALLOWANCE_SECONDS - u.used_free_seconds)
    let total_available := remaining_free + u.balance_seconds
    if duration ≤ total_available then (true, 0)
    else (false, duration - total_available)

/-- `db_service.update_user_usage(user_id, duration)` on an existing
user row: consume the free allowance first and the balance second,
clipping the balance at zero.  Mirrors the three branches of the Python
function: `remaining_free > 0` with `duration <= remaining_free`;
`remaining_free > 0` with `duration > remaining_free`, which sets
`used_free_seconds = 300.0` and deducts the rest from the balance; and
the `else` branch, which deducts everything from the balance. -/
def update_user_usage (u : UserRow) (duration : ℚ) : UserRow :=
  let remaining_free := pymax 0 (FREE_ALLOWANCE_SECONDS - u.used_free_seconds)
  if 0 < remaining_free then
    if duration ≤ remaining_free then
      { u with used_free_seconds := u.used_free_seconds + duration }
    else
      { used_free_seconds := FREE_ALLOWANCE_SECONDS,
        balance_seconds := pymax 0 (u.balance_seconds - (duration - remaining_free)) }
  else
    { u with balance_seconds := pymax 0 (u.balance_seconds - duration) }

/-- Transaction status strings of `db_service.py`: `pending`, `success`,
`failed`. -/
inductive TxStatus
  | pending
  | success
  | failed
  deriving DecidableEq

/-- The `transactions` table row, restricted to the fields
`complete_transaction` reads (`db_service.py`, class `Transaction`). -/
structure TxRow where
  user_id : ℕ
  seconds_added : ℚ
  status : TxStatus
  deriving DecidableEq

/-- The database state seen by the transaction workflow: the `users` and
`transactions` tables, keyed by their integer primary keys. -/
structure DB where
  users : ℕ → Option UserRow
  txs : ℕ → Option TxRow

/-- `db_service.complete_transaction(tx_id, status)`: fetch the
transaction; if it exists and is still `pending`, set its status, and —
only when the new status is `success` and the user row exists — add
`seconds_added` to the user's `balance_seconds`; commit and return
`True`.  In every other case nothing is written and the call returns
`False`. -/
def complete_transaction (db : DB) (tx_id : ℕ) (status : TxStatus) : DB × Bool :=
  match db.txs tx_id with
  | none => (db, false)
  | some tx =>
    if tx.status = TxStatus.pending then
      let txs' : ℕ → Option TxRow :=
        fun i => if i = tx_id then some { tx with status := status } else db.txs i
      let users' : ℕ → Option UserRow :=
        if status = TxStatus.success then
          match db.users tx.user_id with
          | some u =>
            fun i =>
              if i = tx.user_id then
                some { u with balance_seconds := u.balance_seconds + tx.seconds_added }
              else db.users i
          | none => db.users
        else db.users
      ({ users := users', txs := txs' }, true)
    else (db, false)

/-- `payment_service.get_tariff_price(minutes)`: the fixed tariff table
`10 ↦ 49, 30 ↦ 129, 60 ↦ 199, 300 ↦ 790, 600 ↦ 1490`, and for any other
number of minutes the custom formula `int(minutes * 2.5 + 20)`. -/
def get_tariff_price (minutes : ℤ) : ℤ :=
  if minutes = 10 then 49
  else if minutes = 30 then 129
  else if minutes = 60 then 199
  else if minutes = 300 then 790
  else if minutes = 600 then 1490
  else pyInt ((minutes : ℚ) * (5 / 2) + 20)

/-- Size ceiling in bytes: the literal `24 * 1024 * 1024` used twice in
`openai_service.transcribe_audio` (24 MiB safety threshold under the
provider's 25 MB limit). -/
def MAX_RAW_SIZE_BYTES : ℕ := 24 * 1024 * 1024

/-- The `status_detail` values returned by
`openai_service.transcribe_audio`: the original file was sent, or the
compressed intermediate was sent. -/
inductive Detail
  | original
  | compressed
  deriving DecidableEq

/-- Exception class of an error raised by the transcription client call
(`client.audio.transcriptions.create`), as discriminated by the `except`
clauses of `bot.handle_audio`: an `OpenAIError`, or any other
exception. -/
inductive SvcErr
  | openAIError
  | otherError
  deriving DecidableEq

/-- Exceptions `openai_service.transcribe_audio` can raise: its two own
`ValueError`s (`FILE_TOO_LARGE_EVEN_AFTER_COMPRESSION` and
`COMPRESSION_FAILED`), or the re-raised exception of the transcription
call. -/
inductive TranscribeExc
  | fileTooLarge
  | compressionFailed
  | service (e : SvcErr)
  deriving DecidableEq

/-- Temporary files a job may create: the downloaded audio
(`data/temp/{file_id}{ext}` in `bot.py`), the compressed intermediate
(`{base}_compressed.ogg` in `openai_service.py`), and the transcript
text file (`data/temp/{timestamp}.txt` in `bot.py`). -/
inductive TFile
  | raw
  | compressed
  | txt
  deriving DecidableEq

/-- Status strings written to the `voice_messages` table by
`bot.handle_audio`: the success statuses (`Without compression` /
`With compression`, per `status_detail`) and the failure status. -/
inductive RecStatus
  | noCompression
  | compression
  | errored
  deriving DecidableEq

/-- Error-reason strings written to the `voice_messages` table by the
`ValueError` handler in `bot.handle_audio`: too large even after
compression, or compression error.  (The third branch of that handler,
a generic transcription error string, is unreachable because the
transcription client raises `OpenAIError`s, not `ValueError`s.) -/
inductive RecErr
  | tooLargeAfterCompression
  | compressionError
  deriving DecidableEq

/-- Observable events of one job run, in program order. -/
inductive Ev
  | download
  | create (f : TFile)
  | remove (f : TFile)
  | check (duration : ℚ)
  | debit (duration : ℚ)
  | record (status : RecStatus) (error : Option RecErr)
  | transcribeCall (f : TFile)
  deriving DecidableEq

/-- Environment of one `transcribe_audio` call: the size of the file on
disk, whether `compress_audio` succeeds (`ffmpeg.run` raises no error),
whether a failed compression leaves a partly written output file behind,
the size of the compressed output, and the outcome of the transcription
call itself. -/
structure TranscriptionEnv where
  rawSize : ℕ
  compressOk : Bool
  leftoverOnFail : Bool
  compressedSize : ℕ
  serviceResult : Except SvcErr Unit

/-- `openai_service.transcribe_audio(file_path)`, with its filesystem
actions recorded as events.  If the raw size exceeds the 24 MiB ceiling
it attempts compression: a compression failure raises the
`COMPRESSION_FAILED` `ValueError` — and since that raise sits before
the `try` of the transcription call, the `finally` block never runs on
this path, so a partly written compressed output (when `ffmpeg` left
one behind) stays on disk; a compressed output still above the ceiling
is removed immediately and the `FILE_TOO_LARGE...` `ValueError` is
raised; otherwise the compressed file becomes the final path with
`status_detail = compressed`.  A file at or below the ceiling is sent
unmodified with `status_detail = original`.  The transcription call
either succeeds or raises, and the `finally` block removes the
compressed intermediate if it exists. -/
def transcribe_audio (env : TranscriptionEnv) : Except TranscribeExc Detail × List Ev :=
  if MAX_RAW_SIZE_BYTES < env.rawSize then
    if env.compressOk then
      if MAX_RAW_SIZE_BYTES < env.compressedSize then
        (Except.error TranscribeExc.fileTooLarge,
          [Ev.create TFile.compressed, Ev.remove TFile.compressed])
      else
        match env.serviceResult with
        | Except.ok _ =>
          (Except.ok Detail.compressed,
            [Ev.create TFile.compressed, Ev.transcribeCall TFile.compressed,
              Ev.remove TFile.compressed])
        | Except.error e =>
          (Except.error (TranscribeExc.service e),
            [Ev.create TFile.compressed, Ev.transcribeCall TFile.compressed,
              Ev.remove TFile.compressed])
    else
      (Except.error TranscribeExc.compressionFailed,
        if env.leftoverOnFail then [Ev.create TFile.compressed] else [])
  else
    match env.serviceResult with
    | Except.ok _ => (Except.ok Detail.original, [Ev.transcribeCall TFile.raw])
    | Except.error e =>
      (Except.error (TranscribeExc.service e), [Ev.transcribeCall TFile.raw])

/-- Failure taxonomy of the pipeline's terminal `Failed` states. -/
inductive FailReason
  | fileTooLarge
  | compressionFailed
  | transcriptionServiceError
  | internalError
  deriving DecidableEq

/-- Terminal outcome of one `handle_audio` run.  `unmeasurable` is the
early return when the audio duration cannot be determined (outside the
failure taxonomy: no record is written and the user is told so). -/
inductive Outcome
  | completed (detail : Detail)
  | rejected (missing : ℚ)
  | unmeasurable
  | failed (r : FailReason)
  deriving DecidableEq

/-- Environment of one `handle_audio` run: the duration carried by the
message (`0` for documents, whose duration is measured after download),
whether `get_file`/`download_file` succeed, the duration measured by
`get_audio_duration` (consulted when the message carries none), the
user's ledger row at the time of the quota check, and the
transcription-stage environment. -/
structure JobEnv where
  srcDuration : ℚ
  downloadOk : Bool
  measuredDuration : ℚ
  user : Option UserRow
  t : TranscriptionEnv

/-- Status written by `add_voice_message` on the success path of
`bot.handle_audio`, as a function of `status_detail`. -/
def recStatusOfDetail : Detail → RecStatus
  | Detail.original => RecStatus.noCompression
  | Detail.compressed => RecStatus.compression

/-- `bot.handle_audio` from the download onward, with its observable
events in program order.  The structure mirrors the source: download
into a temp file; measure the duration if the message carried none
(returning early when it cannot be measured); `check_user_limit`, with a
rejection deleting the temp file and returning the upsell path (no
record, no debit); `transcribe_audio`; on success `update_user_usage`,
`add_voice_message` and the transcript text file; on a `ValueError` a
failure record; on an `OpenAIError` or any other exception only an
apologetic message.  The `finally` block removes the raw temp file and
the text file if they exist.  A download failure is handled by the
generic `except` clause (internal error, nothing written).  Messaging
calls are assumed not to raise. -/
def handle_audio (env : JobEnv) : Outcome × List Ev :=
  if env.downloadOk = false then
    (Outcome.failed FailReason.internalError, [])
  else
    let duration := if env.srcDuration = 0 then env.measuredDuration else env.srcDuration
    if env.srcDuration = 0 ∧ env.measuredDuration = 0 then
      (Outcome.unmeasurable, [Ev.download, Ev.remove TFile.raw])
    else
      let chk := check_user_limit env.user duration
      if chk.1 = false then
        (Outcome.rejected chk.2, [Ev.download, Ev.check duration, Ev.remove TFile.raw])
      else
        let tr := transcribe_audio env.t
        match tr.1 with
        | Except.ok detail =>
          (Outcome.completed detail,
            [Ev.download, Ev.check duration] ++ tr.2 ++
              [Ev.debit duration,
                Ev.record (recStatusOfDetail detail) none,
                Ev.create TFile.txt, Ev.remove TFile.raw, Ev.remove TFile.txt])
        | Except.error TranscribeExc.fileTooLarge =>
          (Outcome.failed FailReason.fileTooLarge,
            [Ev.download, Ev.check duration] ++ tr.2 ++
              [Ev.record RecStatus.errored (some RecErr.tooLargeAfterCompression),
                Ev.remove TFile.raw])
        | Except.error TranscribeExc.compressionFailed =>
          (Outcome.failed FailReason.compressionFailed,
            [Ev.download, Ev.check duration] ++ tr.2 ++
              [Ev.record RecStatus.errored (some RecErr.compressionError),
                Ev.remove TFile.raw])
        | Except.error (TranscribeExc.service SvcErr.openAIError) =>
          (Outcome.failed FailReason.transcriptionServiceError,
            [Ev.download, Ev.check duration] ++ tr.2 ++ [Ev.remove TFile.raw])
        | Except.error (TranscribeExc.service SvcErr.otherError) =>
          (Outcome.failed FailReason.internalError,
            [Ev.download, Ev.check duration] ++ tr.2 ++ [Ev.remove TFile.raw])

/-- Effect of one event on the set of temp files on disk, encoded as a
characteristic function. -/
def fsApply (s : TFile → Bool) (e : Ev) : TFile → Bool :=
  match e with
  | Ev.download => fun f => if f = TFile.raw then true else s f
  | Ev.create g => fun f => if f = g then true else s f
  | Ev.remove g => fun f => if f = g then false else s f
  | _ => s

/-- Temp files on disk after a trace, starting from an empty temp
directory. -/
def fsRun (tr : List Ev) : TFile → Bool := tr.foldl fsApply (fun _ => false)

/-- Whether a trace contains a `voice_messages` write. -/
def writesRecord (tr : List Ev) : Bool :=
  tr.any fun e =>
    match e with
    | Ev.record _ _ => true
    | _ => false

/-- Whether a trace contains the download of the audio bytes. -/
def downloadsFile (tr : List Ev) : Bool :=
  tr.any fun e =>
    match e with
    | Ev.download => true
    | _ => false

/-- Whether a trace contains a ledger debit. -/
def debitsLedger (tr : List Ev) : Bool :=
  tr.any fun e =>
    match e with
    | Ev.debit _ => true
    | _ => false

/-- The prefix of a trace strictly before its first availability
check. -/
def eventsBeforeCheck (tr : List Ev) : List Ev :=
  tr.takeWhile fun e =>
    match e with
    | Ev.check _ => false
    | _ => true

/-- Whether a trace contains an availability check. -/
def hasCheck (tr : List Ev) : Bool :=
  tr.any fun e =>
    match e with
    | Ev.check _ => true
    | _ => false

/-- Control state of one in-flight job with respect to the shared
ledger row: it still has to run `check_user_limit`, or the check passed
and it still has to run `update_user_usage`, or it is done.  `allowed`
records the result of its check (meaningful once past `toCheck`). -/
inductive JobPhase
  | toCheck
  | toDebit
  | done
  deriving DecidableEq

/-- One job's progress through its check-then-debit pair. -/
structure JobSt where
  phase : JobPhase
  allowed : Bool
  deriving DecidableEq

/-- One atomic step of a job against the shared user row: its
`check_user_limit` call, or its `update_user_usage` call (run only by
jobs whose check passed, as in `bot.handle_audio`).  Each database
helper call is one session and hence one atomic step; nothing makes the
pair of calls atomic. -/
def jobStep (u : UserRow) (d : ℚ) (j : JobSt) : UserRow × JobSt :=
  match j.phase with
  | JobPhase.toCheck =>
    if (check_user_limit (some u) d).1 then
      (u, { phase := JobPhase.toDebit, allowed := true })
    else
      (u, { phase := JobPhase.done, allowed := false })
  | JobPhase.toDebit => (update_user_usage u d, { phase := JobPhase.done, allowed := true })
  | JobPhase.done => (u, j)

/-- Shared state of two concurrent jobs of the same user: the user's
ledger row and each job's control state. -/
structure Sys where
  u : UserRow
  j1 : JobSt
  j2 : JobSt
  deriving DecidableEq

/-- Run one step of the chosen job (`false` steps job 1, `true` steps
job 2) with durations `d1` and `d2`. -/
def sysStep (d1 d2 : ℚ) (s : Sys) (which : Bool) : Sys :=
  if which then
    let r := jobStep s.u d2 s.j2
    { u := r.1, j1 := s.j1, j2 := r.2 }
  else
    let r := jobStep s.u d1 s.j1
    { u := r.1, j1 := r.2, j2 := s.j2 }

/-- Execute an interleaving schedule of the two jobs' steps. -/
def runSched (d1 d2 : ℚ) (s : Sys) (sched : List Bool) : Sys :=
  sched.foldl (sysStep d1 d2) s

/-- Both jobs poised to run their checks. -/
def initSys (u : UserRow) : Sys :=
  { u := u,
    j1 := { phase := JobPhase.toCheck, allowed := false },
    j2 := { phase := JobPhase.toCheck, allowed := false } }

/-- One job's check-then-debit pair executed as a single atomic per-user
operation, as the specification's concurrency section requires. -/
def atomicJob (u : UserRow) (d : ℚ) : UserRow × Bool :=
  if (check_user_limit (some u) d).1 then (update_user_usage u d, true)
  else (u, false)

/-- The two jobs executed atomically one after the other
(`firstIsOne = true` runs job 1 first).  Returns the final user row and
the two jobs' check results. -/
def atomicPair (u : UserRow) (d1 d2 : ℚ) (firstIsOne : Bool) : UserRow × Bool × Bool :=
  if firstIsOne then
    let r1 := atomicJob u d1
    let r2 := atomicJob r1.1 d2
    (r2.1, r1.2, r2.2)
  else
    let r2 := atomicJob u d2
    let r1 := atomicJob r2.1 d1
    (r1.1, r1.2, r2.2)

/-- Concrete database fixture: one pending 600-second transaction
(id 1) of user 7, whose ledger row holds a balance of 5 seconds. -/
def dbFix : DB :=
  { users := fun i => if i = 7 then some ⟨5, 0⟩ else none,
    txs := fun i => if i = 1 then some ⟨7, 600, TxStatus.pending⟩ else none }

/-- Job environment used as a concrete rejection run: a known 100-second
duration against a user whose free allowance is spent and whose balance
is zero. -/
def rejectEnv : JobEnv :=
  ⟨100, true, 0, some ⟨0, 300⟩, ⟨0, true, false, 0, Except.ok ()⟩⟩

/-- Job environment used as a concrete transcription-service failure
run: a known 60-second duration, a user with ample balance, a small
file, and a transcription call that raises an `OpenAIError`. -/
def svcFailEnv : JobEnv :=
  ⟨60, true, 0, some ⟨1000, 0⟩, ⟨1000, true, false, 0, Except.error SvcErr.openAIError⟩⟩

/-- Job environment used as a concrete compression-failure run: a known
60-second duration, a user with ample balance, an oversized file, and a
compressor that errors out. -/
def compressFailEnv : JobEnv :=
  ⟨60, true, 0, some ⟨1000, 0⟩, ⟨26000000, false, false, 0, Except.ok ()⟩⟩

/-- Transcription environment used as a concrete still-too-large run: an
oversized input whose compressed output still exceeds the ceiling. -/
def stillTooLargeTEnv : TranscriptionEnv :=
  ⟨26000000, true, false, 25500000, Except.ok ()⟩

/-- Job environment used as the concrete leaking run: a known 60-second
duration, a user with ample balance, an oversized file, and an `ffmpeg`
failure that leaves a partly written compressed output behind. -/
def leakEnv : JobEnv :=
  ⟨60, true, 0, some ⟨1000, 0⟩, ⟨26000000, false, true, 0, Except.ok ()⟩⟩

end STT

namespace STT

theorem pymax_eq_max (a b : ℚ) : pymax a b = max a b := by
  unfold pymax
  split
  · next h => exact (max_eq_left h).symm
  · next h => exact (max_eq_right (le_of_not_le h)).symm

theorem update_user_usage_invariant (u : UserRow) (d : ℚ)
    (hb : 0 ≤ u.balance_seconds)
    (hf : u.used_free_seconds ≤ FREE_ALLOWANCE_SECONDS) :
    0 ≤ (update_user_usage u d).balance_seconds ∧
      (update_user_usage u d).used_free_seconds ≤ FREE_ALLOWANCE_SECONDS := by
  unfold update_user_usage
  simp only [pymax_eq_max]
  split
  · next hpos =>
    have hx : 0 < FREE_ALLOWANCE_SECONDS - u.used_free_seconds := by
      rcases lt_max_iff.mp hpos with h | h
      · exact absurd h (lt_irrefl 0)
      · exact h
    have hmax : max 0 (FREE_ALLOWANCE_SECONDS - u.used_free_seconds)
        = FREE_ALLOWANCE_SECONDS - u.used_free_seconds := max_eq_right hx.le
    split
    · next hle =>
      rw [hmax] at hle
      exact ⟨hb, by simp only; linarith⟩
    · next hgt =>
      exact ⟨le_max_left 0 _, le_refl _⟩
  · next hpos =>
    exact ⟨le_max_left 0 _, hf⟩

/-- C2: for every user state with a non-negative balance and at most the
300-second free allowance used, any sequence of `update_user_usage`
debits with non-negative requested seconds leaves the balance
non-negative and the used free seconds at most the allowance. -/
theorem debit_sequence_preserves_invariants (u : UserRow)
    (hb : 0 ≤ u.balance_seconds) (hf : u.used_free_seconds ≤ FREE_ALLOWANCE_SECONDS)
    (ds : List ℚ) (hds : ∀ d ∈ ds, 0 ≤ d) :
    0 ≤ (ds.foldl update_user_usage u).balance_seconds ∧
      (ds.foldl update_user_usage u).used_free_seconds ≤ FREE_ALLOWANCE_SECONDS := by
  revert hds
  induction ds generalizing u with
  | nil => exact fun _ => ⟨hb, hf⟩
  | cons d ds ih =>
    intro hds
    have h := update_user_usage_invariant u d hb hf
    exact ih (update_user_usage u d) h.1 h.2 (fun x hx => hds x (List.mem_cons_of_mem _ hx))

theorem debit_sequence_preserves_invariants_witness :
    0 ≤ (([250, 200] : List ℚ).foldl update_user_usage ⟨100, 0⟩).balance_seconds ∧
      (([250, 200] : List ℚ).foldl update_user_usage ⟨100, 0⟩).used_free_seconds ≤
        FREE_ALLOWANCE_SECONDS :=
  debit_sequence_preserves_invariants ⟨100, 0⟩ (by decide) (by decide) [250, 200] (by decide)

/-- C3: `update_user_usage` consumes the free allowance before the
balance: it adds `min d remainingFree` to `used_free_seconds`, and only
when `d` exceeds the remaining free allowance does it subtract the
excess from the balance, clipped at zero.  In particular, from
`used_free_seconds = 0, balance_seconds = 100`, debiting 250 yields
`⟨100, 250⟩`, and a further debit of 200 yields `⟨0, 300⟩`. -/
theorem debit_free_before_balance (u : UserRow) (d : ℚ)
    (hd : 0 ≤ d) (hb : 0 ≤ u.balance_seconds) :
    (update_user_usage u d).used_free_seconds =
        u.used_free_seconds +
          min d (pymax 0 (FREE_ALLOWANCE_SECONDS - u.used_free_seconds)) ∧
      (update_user_usage u d).balance_seconds =
        (if pymax 0 (FREE_ALLOWANCE_SECONDS - u.used_free_seconds) < d then
          pymax 0
            (u.balance_seconds -
              (d - pymax 0 (FREE_ALLOWANCE_SECONDS - u.used_free_seconds)))
        else u.balance_seconds) ∧
      update_user_usage ⟨100, 0⟩ 250 = ⟨100, 250⟩ ∧
      update_user_usage ⟨100, 250⟩ 200 = ⟨0, 300⟩ := by
  refine ⟨?_, ?_, by with_unfolding_all rfl, by with_unfolding_all rfl⟩
  · unfold update_user_usage
    simp only [pymax_eq_max]
    split
    · next hpos =>
      have hx : 0 < FREE_ALLOWANCE_SECONDS - u.used_free_seconds := by
        rcases lt_max_iff.mp hpos with h | h
        · exact absurd h (lt_irrefl 0)
        · exact h
      have hmax : max 0 (FREE_ALLOWANCE_SECONDS - u.used_free_seconds)
          = FREE_ALLOWANCE_SECONDS - u.used_free_seconds := max_eq_right hx.le
      split
      · next hle =>
        rw [hmax] at hle ⊢
        simp only [min_eq_left hle]
      · next hgt =>
        rw [hmax] at hgt ⊢
        have : FREE_ALLOWANCE_SECONDS - u.used_free_seconds ≤ d :=
          le_of_not_le hgt
        simp only [min_eq_right this]
        ring
    · next hpos =>
      have hz : max 0 (FREE_ALLOWANCE_SECONDS - u.used_free_seconds) = 0 := by
        rcases le_or_lt (max 0 (FREE_ALLOWANCE_SECONDS - u.used_free_seconds)) 0 with h | h
        · exact le_antisymm h (le_max_left 0 _)
        · exact absurd h hpos
      rw [hz, min_eq_right hd, add_zero]
  · unfold update_user_usage
    simp only [pymax_eq_max]
    split
    · next hpos =>
      split
      · next hle =>
        rw [if_neg (not_lt.mpr hle)]
      · next hgt =>
        rw [if_pos (lt_of_not_le hgt)]
    · next hpos =>
      have hz : max 0 (FREE_ALLOWANCE_SECONDS - u.used_free_seconds) = 0 := by
        rcases le_or_lt (max 0 (FREE_ALLOWANCE_SECONDS - u.used_free_seconds)) 0 with h | h
        · exact le_antisymm h (le_max_left 0 _)
        · exact absurd h hpos
      rw [hz]
      rcases eq_or_lt_of_le hd with h0 | h0
      · rw [if_neg (by rw [← h0]; exact lt_irrefl 0), ← h0]
        simp only [sub_zero, max_eq_right hb]
      · rw [if_pos h0, sub_zero]

theorem debit_free_before_balance_witness :
    update_user_usage ⟨100, 0⟩ 250 = ⟨100, 250⟩ :=
  (debit_free_before_balance ⟨100, 0⟩ 250 (by decide) (by decide)).2.2.1

/-- C4: for a known user, `check_user_limit` answers `(true, 0)` exactly
when `max 0 (300 - usedFree) + balance` covers the request, and
otherwise `(false, missing)` with `missing` the uncovered remainder; an
unknown user is always allowed.  In particular a user with
`used_free_seconds = 300` and zero balance asking for 400 seconds gets
`(false, 400)`. -/
theorem availability_characterization (u : UserRow) (d : ℚ) :
    (check_user_limit (some u) d = (true, 0) ↔
        d ≤ pymax 0 (FREE_ALLOWANCE_SECONDS - u.used_free_seconds) + u.balance_seconds) ∧
      (pymax 0 (FREE_ALLOWANCE_SECONDS - u.used_free_seconds) + u.balance_seconds < d →
        check_user_limit (some u) d =
          (false,
            d - (pymax 0 (FREE_ALLOWANCE_SECONDS - u.used_free_seconds) +
              u.balance_seconds))) ∧
      check_user_limit none d = (true, 0) ∧
      check_user_limit (some ⟨0, 300⟩) 400 = (false, 400) := by
  have key : ∀ e : ℚ, check_user_limit (some u) e =
      if e ≤ pymax 0 (FREE_ALLOWANCE_SECONDS - u.used_free_seconds) + u.balance_seconds
      then (true, 0)
      else
        (false,
          e - (pymax 0 (FREE_ALLOWANCE_SECONDS - u.used_free_seconds) +
            u.balance_seconds)) :=
    fun e => rfl
  refine ⟨?_, ?_, rfl, by with_unfolding_all rfl⟩
  · rw [key]
    split_ifs with h
    · simp [h]
    · constructor
      · intro hcontra
        exact absurd (congrArg Prod.fst hcontra) Bool.false_ne_true
      · intro hcontra
        exact absurd hcontra h
  · intro hlt
    rw [key, if_neg (not_le.mpr hlt)]

theorem availability_characterization_witness :
    check_user_limit (some ⟨0, 300⟩) 400 =
      (false,
        400 - (pymax 0 (FREE_ALLOWANCE_SECONDS - (⟨0, 300⟩ : UserRow).used_free_seconds) +
          (⟨0, 300⟩ : UserRow).balance_seconds)) :=
  (availability_characterization ⟨0, 300⟩ 400).2.1 (by with_unfolding_all decide)

end STT

namespace STT

/-- C1: completing a pending transaction with outcome `success` credits
the user's balance by `seconds_added` exactly once: the first call sets
the status to `success`, adds the seconds to `balance_seconds` and
returns `true`; a second call — and more generally
`complete_transaction` on any non-pending or missing transaction —
changes nothing and returns `false`. -/
theorem complete_transaction_credits_once :
    (∀ (db : DB) (tid : ℕ) (tx : TxRow) (u : UserRow),
        db.txs tid = some tx → tx.status = TxStatus.pending →
        db.users tx.user_id = some u →
        (complete_transaction db tid TxStatus.success).2 = true ∧
          (complete_transaction db tid TxStatus.success).1.txs tid =
            some { tx with status := TxStatus.success } ∧
          (complete_transaction db tid TxStatus.success).1.users tx.user_id =
            some { u with balance_seconds := u.balance_seconds + tx.seconds_added } ∧
          complete_transaction (complete_transaction db tid TxStatus.success).1 tid
              TxStatus.success =
            ((complete_transaction db tid TxStatus.success).1, false)) ∧
      (∀ (db : DB) (tid : ℕ) (tx : TxRow) (s : TxStatus),
        db.txs tid = some tx → tx.status ≠ TxStatus.pending →
        complete_transaction db tid s = (db, false)) ∧
      (∀ (db : DB) (tid : ℕ) (s : TxStatus),
        db.txs tid = none → complete_transaction db tid s = (db, false)) := by
  refine ⟨?_, ?_, ?_⟩
  · intro db tid tx u htx hpend hu
    refine ⟨?_, ?_, ?_, ?_⟩ <;> simp [complete_transaction, htx, hpend, hu]
  · intro db tid tx s htx hne
    simp [complete_transaction, htx, hne]
  · intro db tid s htx
    simp [complete_transaction, htx]

theorem complete_transaction_credits_once_witness :
    (complete_transaction dbFix 1 TxStatus.success).2 = true :=
  (complete_transaction_credits_once.1 dbFix 1 ⟨7, 600, TxStatus.pending⟩ ⟨5, 0⟩
    rfl rfl rfl).1

/-- C10: `get_tariff_price` is total, returns the five fixed package
prices (10 ↦ 49, 30 ↦ 129, 60 ↦ 199, 300 ↦ 790, 600 ↦ 1490), and on
every other positive number of minutes returns the integer truncation
of `minutes * 2.5 + 20`, which for positive minutes is `(5 m + 40) / 2`
rounded down; the custom formula is never applied to the five fixed
package sizes. -/
theorem tariff_price_spec (m : ℤ) (hm : 0 < m) :
    get_tariff_price 10 = 49 ∧ get_tariff_price 30 = 129 ∧
      get_tariff_price 60 = 199 ∧ get_tariff_price 300 = 790 ∧
      get_tariff_price 600 = 1490 ∧
      (m ≠ 10 → m ≠ 30 → m ≠ 60 → m ≠ 300 → m ≠ 600 →
        get_tariff_price m = (5 * m + 40) / 2) := by
  refine ⟨rfl, rfl, rfl, rfl, rfl, ?_⟩
  intro h10 h30 h60 h300 h600
  unfold get_tariff_price
  rw [if_neg h10, if_neg h30, if_neg h60, if_neg h300, if_neg h600]
  unfold pyInt
  have hmq : (0 : ℚ) < (m : ℚ) := by exact_mod_cast hm
  have harg : (0 : ℚ) ≤ (m : ℚ) * (5 / 2) + 20 := by linarith
  rw [if_pos harg]
  have hcast : (m : ℚ) * (5 / 2) + 20 = ((5 * m + 40 : ℤ) : ℚ) / ((2 : ℕ) : ℚ) := by
    push_cast
    ring
  rw [hcast, Rat.floor_intCast_div_natCast]
  norm_num

theorem tariff_price_spec_witness :
    get_tariff_price 7 = (5 * 7 + 40) / 2 :=
  (tariff_price_spec 7 (by decide)).2.2.2.2.2 (by decide) (by decide) (by decide)
    (by decide) (by decide)

end STT

namespace STT

/-- C6: when the raw size exceeds the 24 MiB ceiling the compressor is
invoked: a compression failure raises the compression-failed error; a
compressed output still above the ceiling raises the file-too-large
error, its whole trace being the creation and immediate deletion of the
compressed intermediate; otherwise the transcription call is made on
the compressed file and a successful call reports
`status_detail = compressed`.  A file at or below the ceiling is
transcribed unmodified: the call is made on the raw file and a
successful call reports `status_detail = original`. -/
theorem size_fallback_behavior (env : TranscriptionEnv) :
    (MAX_RAW_SIZE_BYTES < env.rawSize → env.compressOk = false →
      (transcribe_audio env).1 = Except.error TranscribeExc.compressionFailed) ∧
      (MAX_RAW_SIZE_BYTES < env.rawSize → env.compressOk = true →
        MAX_RAW_SIZE_BYTES < env.compressedSize →
        transcribe_audio env =
          (Except.error TranscribeExc.fileTooLarge,
            [Ev.create TFile.compressed, Ev.remove TFile.compressed])) ∧
      (MAX_RAW_SIZE_BYTES < env.rawSize → env.compressOk = true →
        env.compressedSize ≤ MAX_RAW_SIZE_BYTES →
        Ev.transcribeCall TFile.compressed ∈ (transcribe_audio env).2 ∧
          (env.serviceResult = Except.ok () →
            (transcribe_audio env).1 = Except.ok Detail.compressed)) ∧
      (env.rawSize ≤ MAX_RAW_SIZE_BYTES →
        Ev.transcribeCall TFile.raw ∈ (transcribe_audio env).2 ∧
          (env.serviceResult = Except.ok () →
            (transcribe_audio env).1 = Except.ok Detail.original)) := by
  refine ⟨?_, ?_, ?_, ?_⟩
  · intro hbig hcf
    simp [transcribe_audio, hbig, hcf]
  · intro hbig hcok hbig2
    simp [transcribe_audio, hbig, hcok, hbig2]
  · intro hbig hcok hle
    cases hsvc : env.serviceResult with
    | ok v =>
      constructor
      · simp [transcribe_audio, hbig, hcok, not_lt.mpr hle, hsvc]
      · intro _
        simp [transcribe_audio, hbig, hcok, not_lt.mpr hle, hsvc]
    | error e =>
      constructor
      · simp [transcribe_audio, hbig, hcok, not_lt.mpr hle, hsvc]
      · intro hok
        simp at hok
  · intro hle
    cases hsvc : env.serviceResult with
    | ok v =>
      constructor
      · simp [transcribe_audio, not_lt.mpr hle, hsvc]
      · intro _
        simp [transcribe_audio, not_lt.mpr hle, hsvc]
    | error e =>
      constructor
      · simp [transcribe_audio, not_lt.mpr hle, hsvc]
      · intro hok
        simp at hok

theorem size_fallback_behavior_witness :
    transcribe_audio stillTooLargeTEnv =
      (Except.error TranscribeExc.fileTooLarge,
        [Ev.create TFile.compressed, Ev.remove TFile.compressed]) :=
  (size_fallback_behavior stillTooLargeTEnv).2.1 (by decide) rfl (by decide)

theorem transcribe_trace_no_record (tenv : TranscriptionEnv) :
    writesRecord (transcribe_audio tenv).2 = false := by
  unfold transcribe_audio
  split
  · split
    · split
      · rfl
      · cases tenv.serviceResult <;> rfl
    · split
      · rfl
      · rfl
  · cases tenv.serviceResult <;> rfl

/-- C8: code bug in the cleanup the claim describes.  The cleanup is
clearly the code's intent (the `finally` comment of
`openai_service.transcribe_audio` reads `Clean up compressed file if it
was created`, and `bot.handle_audio` wraps everything in a `finally`),
but the `COMPRESSION_FAILED` raise sits before the try/finally of the
transcription call, so a partly written `ffmpeg` output is removed
nowhere: evaluating the pipeline at the concrete run `leakEnv`
(oversized input, `ffmpeg` fails after partially writing its output),
the job reaches the terminal `Failed compressionFailed` state with the
raw download and the text file cleaned up but the compressed
intermediate still on disk. -/
theorem compressed_leak_on_compression_failure :
    (handle_audio leakEnv).1 = Outcome.failed FailReason.compressionFailed ∧
      fsRun (handle_audio leakEnv).2 TFile.compressed = true ∧
      fsRun (handle_audio leakEnv).2 TFile.raw = false ∧
      fsRun (handle_audio leakEnv).2 TFile.txt = false := by
  refine ⟨?_, ?_, ?_, ?_⟩ <;> with_unfolding_all rfl

end STT

namespace STT

theorem writesRecord_nil : writesRecord [] = false := rfl

theorem writesRecord_append (l1 l2 : List Ev) :
    writesRecord (l1 ++ l2) = (writesRecord l1 || writesRecord l2) := by
  simp [writesRecord]

theorem transcribe_trace_no_record_exists (tenv : TranscriptionEnv) :
    ¬ ∃ x ∈ (transcribe_audio tenv).2,
        (match x with
          | Ev.record _ _ => true
          | _ => false) = true := by
  intro hx
  have hnr := transcribe_trace_no_record tenv
  simp only [writesRecord, List.any_eq_true] at hnr
  exact absurd hx (by simpa using hnr)

/-- C5 counterexample: the concrete run `svcFailEnv` ends in the
terminal failure `transcriptionServiceError` — a reason of the taxonomy
— yet its trace contains no job-record write: the `OpenAIError` handler
of `bot.handle_audio` only messages the user. -/
theorem failed_job_without_record :
    (handle_audio svcFailEnv).1 = Outcome.failed FailReason.transcriptionServiceError ∧
      writesRecord (handle_audio svcFailEnv).2 = false := by
  constructor
  · with_unfolding_all rfl
  · with_unfolding_all rfl

/-- C5 amended: a run that ends in a taxonomy failure writes a job
record exactly when the reason is one of the two `ValueError` failures
(file still too large after compression, compression failed), and then
with the matching classified error reason; transcription-service errors
and internal errors write no record, and a rejection for insufficient
balance writes no record either.  No raw error reaches the caller: every
run returns one of the terminal `Outcome`s. -/
theorem failed_job_record_policy (env : JobEnv) :
    (∀ r : FailReason, (handle_audio env).1 = Outcome.failed r →
      (writesRecord (handle_audio env).2 = true ↔
        (r = FailReason.fileTooLarge ∨ r = FailReason.compressionFailed))) ∧
      ((handle_audio env).1 = Outcome.failed FailReason.fileTooLarge →
        Ev.record RecStatus.errored (some RecErr.tooLargeAfterCompression) ∈
          (handle_audio env).2) ∧
      ((handle_audio env).1 = Outcome.failed FailReason.compressionFailed →
        Ev.record RecStatus.errored (some RecErr.compressionError) ∈
          (handle_audio env).2) ∧
      (∀ m : ℚ, (handle_audio env).1 = Outcome.rejected m →
        writesRecord (handle_audio env).2 = false) := by
  simp only [handle_audio]
  repeat' split
  all_goals refine ⟨fun r h => ?_, fun h => ?_, fun h => ?_, fun m h => ?_⟩
  all_goals
    try simp_all [writesRecord_append, transcribe_trace_no_record, writesRecord]
  all_goals
    subst h
    simp [transcribe_trace_no_record_exists]

theorem failed_job_record_policy_witness :
    Ev.record RecStatus.errored (some RecErr.compressionError) ∈
      (handle_audio compressFailEnv).2 :=
  (failed_job_record_policy compressFailEnv).2.2.1 (by with_unfolding_all rfl)

/-- C7 counterexample: the concrete run `rejectEnv` carries a known,
non-zero duration at submission and is rejected for insufficient
balance, yet its trace contains the download: `bot.handle_audio`
downloads the file before calling `check_user_limit`. -/
theorem rejected_job_downloads :
    rejectEnv.srcDuration ≠ 0 ∧
      (handle_audio rejectEnv).1 = Outcome.rejected 100 ∧
      downloadsFile (handle_audio rejectEnv).2 = true := by
  refine ⟨?_, ?_, ?_⟩
  · with_unfolding_all decide
  · with_unfolding_all rfl
  · with_unfolding_all rfl

/-- C7 amended: the availability check never precedes the download — on
every run whose trace contains a check, the download already appears in
the trace prefix strictly before the first check; in particular a job
rejected for insufficient balance has downloaded (and then deleted) the
audio bytes. -/
theorem download_precedes_check (env : JobEnv) :
    (∀ m : ℚ, (handle_audio env).1 = Outcome.rejected m →
      downloadsFile (eventsBeforeCheck (handle_audio env).2) = true) ∧
      (hasCheck (handle_audio env).2 = true →
        downloadsFile (eventsBeforeCheck (handle_audio env).2) = true) := by
  simp only [handle_audio]
  repeat' split
  all_goals refine ⟨fun m h => ?_, fun h => ?_⟩
  all_goals
    first
    | rfl
    | simp [hasCheck] at h

theorem download_precedes_check_witness :
    downloadsFile (eventsBeforeCheck (handle_audio rejectEnv).2) = true :=
  (download_precedes_check rejectEnv).1 100 (by with_unfolding_all rfl)

theorem jobStep_invariant (u : UserRow) (d : ℚ) (j : JobSt)
    (hb : 0 ≤ u.balance_seconds) (hf : u.used_free_seconds ≤ FREE_ALLOWANCE_SECONDS) :
    0 ≤ (jobStep u d j).1.balance_seconds ∧
      (jobStep u d j).1.used_free_seconds ≤ FREE_ALLOWANCE_SECONDS := by
  unfold jobStep
  split
  · split
    · exact ⟨hb, hf⟩
    · exact ⟨hb, hf⟩
  · exact update_user_usage_invariant u d hb hf
  · exact ⟨hb, hf⟩

theorem runSched_invariant (d1 d2 : ℚ) (sched : List Bool) (s : Sys)
    (hb : 0 ≤ s.u.balance_seconds)
    (hf : s.u.used_free_seconds ≤ FREE_ALLOWANCE_SECONDS) :
    0 ≤ (runSched d1 d2 s sched).u.balance_seconds ∧
      (runSched d1 d2 s sched).u.used_free_seconds ≤ FREE_ALLOWANCE_SECONDS := by
  revert hb hf
  induction sched generalizing s with
  | nil => exact fun hb hf => ⟨hb, hf⟩
  | cons w sched ih =>
    intro hb hf
    have h : 0 ≤ (sysStep d1 d2 s w).u.balance_seconds ∧
        (sysStep d1 d2 s w).u.used_free_seconds ≤ FREE_ALLOWANCE_SECONDS := by
      cases w
      · simpa [sysStep] using jobStep_invariant s.u d1 s.j1 hb hf
      · simpa [sysStep] using jobStep_invariant s.u d2 s.j2 hb hf
    exact ih (sysStep d1 d2 s w) h.1 h.2

/-- C9 counterexample: from a user with nothing used and zero balance,
two 300-second jobs interleaved check–check–debit–debit both pass the
availability check and both debit — consuming 600 seconds against 300
available — an outcome no serial execution of atomic check-and-debit
pairs can produce: executed atomically in either order, one of the two
jobs is always rejected.  The check-then-debit pair of
`bot.handle_audio` is therefore not one atomic per-user operation. -/
theorem check_debit_not_atomic :
    (runSched 300 300 (initSys ⟨0, 0⟩) [false, true, false, true]).j1.allowed = true ∧
      (runSched 300 300 (initSys ⟨0, 0⟩) [false, true, false, true]).j2.allowed = true ∧
      (runSched 300 300 (initSys ⟨0, 0⟩) [false, true, false, true]).j1.phase =
        JobPhase.done ∧
      (runSched 300 300 (initSys ⟨0, 0⟩) [false, true, false, true]).j2.phase =
        JobPhase.done ∧
      (atomicPair ⟨0, 0⟩ 300 300 true).2 ≠ (true, true) ∧
      (atomicPair ⟨0, 0⟩ 300 300 false).2 ≠ (true, true) := by
  refine ⟨?_, ?_, ?_, ?_, ?_, ?_⟩
  · with_unfolding_all rfl
  · with_unfolding_all rfl
  · with_unfolding_all rfl
  · with_unfolding_all rfl
  · with_unfolding_all decide
  · with_unfolding_all decide

/-- C9 amended: the check and the debit of one job are two separate
atomic database calls, not one atomic per-user operation (concurrent
same-user jobs can both pass the check against the same balance and
over-consume it); nevertheless, under every interleaving of two
same-user jobs the ledger safety holds: the balance never goes negative
— each debit clips at zero — and the used free seconds never exceed the
allowance. -/
theorem interleaved_debits_never_negative (u : UserRow) (d1 d2 : ℚ) (sched : List Bool)
    (hb : 0 ≤ u.balance_seconds)
    (hf : u.used_free_seconds ≤ FREE_ALLOWANCE_SECONDS) :
    0 ≤ (runSched d1 d2 (initSys u) sched).u.balance_seconds ∧
      (runSched d1 d2 (initSys u) sched).u.used_free_seconds ≤ FREE_ALLOWANCE_SECONDS :=
  runSched_invariant d1 d2 sched (initSys u) hb hf

theorem interleaved_debits_never_negative_witness :
    0 ≤ (runSched 300 300 (initSys ⟨0, 0⟩) [false, true, false, true]).u.balance_seconds ∧
      (runSched 300 300 (initSys ⟨0, 0⟩) [false, true, false, true]).u.used_free_seconds ≤
        FREE_ALLOWANCE_SECONDS :=
  interleaved_debits_never_negative ⟨0, 0⟩ 300 300 [false, true, false, true]
    (by decide) (by decide)

end STT
